import Mathlib

/-!
Verification of the QOTA reservation scheduling and usage-balance engine.

Source of truth: the frontend calendar page (CalendarPage.jsx) — its
slot-selection validation, derived user data and balance card are embedded
directly.  The engine components the spec reframes (Conflict Index, Balance
Ledger, Reservation Manager, Possession State Machine) are not present in
the available sources; those are modelled from the spec, as marked on each
definition.

Time model: a timestamp is a number of minutes since an epoch; a calendar
day holds 1440 minutes.  `setHours(0,0,0,0)` becomes `startOfDay`, and a
calendar date is identified by its day index `dayOf t`.
-/

deriving instance DecidableEq for Except

namespace Qota

def minutesPerDay : Nat := 1440

/-- Calendar day index of a timestamp (date-only view of a `Date`). -/
def dayOf (t : Nat) : Nat := t / minutesPerDay

/-- Midnight of the day of `t`; the embedding of `d.setHours(0,0,0,0)`. -/
def startOfDay (t : Nat) : Nat := dayOf t * minutesPerDay

/-- Calendar event as mapped in CalendarPage.jsx from a reservation:
`start = new Date(r.dataInicio)`, `end = new Date(r.dataFim)`.  The `end`
field is named `stop` because `end` is reserved in Lean. -/
structure Event where
  start : Nat
  stop : Nat
  deriving DecidableEq, Repr

/-- Validation 1 of `handleSelectSlot`: `slotInfo.start < hoje` where
`hoje` is now with hours zeroed.  Returns `true` when the selection is
rejected as a past date. -/
def pastDateRejected (now slotStart : Nat) : Bool :=
  decide (slotStart < startOfDay now)

/-- Validation 2 of `handleSelectSlot`: the selected start is booked iff
some event satisfies `slotStart >= eventStart && slotStart < eventEnd`,
both event bounds truncated to midnight. -/
def isBooked (events : List Event) (slotStart : Nat) : Bool :=
  events.any fun event =>
    decide (startOfDay event.start ≤ slotStart) &&
      decide (slotStart < startOfDay event.stop)

/-- Modelled from the spec: the Conflict Index overlap query of §4.1, the
half-open interval test `s1 < e2 AND s2 < e1`; the query itself is not in
the available sources. -/
def overlaps (s1 e1 s2 e2 : Nat) : Bool :=
  decide (s1 < e2) && decide (s2 < e1)

/-- Claim C1: the conflict test reports an overlap iff `s1 < e2 ∧ s2 < e1`;
a reservation ending on day `D` never conflicts with one starting on day
`D`; and the slot-selection check of `handleSelectSlot` rejects a selected
start iff it lies in `[eventStart, eventEnd)` of some existing event, the
event's end day itself being accepted. -/
theorem conflict_test_halfopen :
    (∀ s1 e1 s2 e2 : Nat, overlaps s1 e1 s2 e2 = true ↔ s1 < e2 ∧ s2 < e1) ∧
    (∀ s1 D e2 : Nat, overlaps s1 D D e2 = false) ∧
    (∀ (events : List Event) (s : Nat),
      isBooked events s = true ↔
        ∃ ev ∈ events, startOfDay ev.start ≤ s ∧ s < startOfDay ev.stop) ∧
    (∀ (events : List Event) (s : Nat),
      isBooked events s = true ↔
        ∃ ev ∈ events, dayOf ev.start ≤ dayOf s ∧ dayOf s < dayOf ev.stop) ∧
    (∀ ev : Event, isBooked [ev] (startOfDay ev.stop) = false) := by
  have hle : ∀ a s : Nat, startOfDay a ≤ s ↔ dayOf a ≤ dayOf s := by
    intro a s
    unfold startOfDay dayOf
    rw [Nat.le_div_iff_mul_le (by decide : 0 < minutesPerDay)]
  have hlt : ∀ s b : Nat, s < startOfDay b ↔ dayOf s < dayOf b := by
    intro s b
    unfold startOfDay dayOf
    rw [Nat.div_lt_iff_lt_mul (by decide : 0 < minutesPerDay)]
  refine ⟨?_, ?_, ?_, ?_, ?_⟩
  · intro s1 e1 s2 e2
    simp [overlaps]
  · intro s1 D e2
    simp [overlaps]
  · intro events s
    simp [isBooked, List.any_eq_true]
  · intro events s
    simp only [isBooked, List.any_eq_true, Bool.and_eq_true,
      decide_eq_true_eq, hle, hlt]
  · intro ev
    simp [isBooked]

/-- Claim C4: the past-date check rejects a selected start iff its calendar
day is strictly before today's calendar day (time-of-day ignored on both
sides), so a start on today's date is accepted. -/
theorem past_date_check_date_only :
    (∀ now s : Nat, pastDateRejected now s = true ↔ dayOf s < dayOf now) ∧
    (∀ now s : Nat, dayOf s = dayOf now → pastDateRejected now s = false) := by
  have key : ∀ now s : Nat, s < startOfDay now ↔ dayOf s < dayOf now := by
    intro now s
    unfold startOfDay dayOf
    rw [Nat.div_lt_iff_lt_mul (by decide : 0 < minutesPerDay)]
  refine ⟨?_, ?_⟩
  · intro now s
    simp [pastDateRejected, key]
  · intro now s h
    simp [pastDateRejected, key, h]

/-- Witness for C4: a selection at minute 1500 (midday of day 1) against
now at minute 2000 (same day 1) passes the past-date check. -/
theorem past_date_check_date_only_witness :
    dayOf 1500 = dayOf 2000 ∧ pastDateRejected 2000 1500 = false :=
  ⟨by decide, past_date_check_date_only.2 2000 1500 (by decide)⟩

inductive PermLevel where
  | MASTER
  | COMMON
  deriving DecidableEq, Repr

inductive RStatus where
  | PENDING
  | CONFIRMED
  | CANCELLED
  | COMPLETED
  deriving DecidableEq, Repr

inductive Err where
  | PastDateError
  | StayLengthError
  | YearOutOfRange
  | PenaltyBlockError
  | DateConflictError
  | InsufficientBalance
  | NotCancellable
  | AlreadySubmitted
  | InventoryEmptyError
  | PossessionStateError
  deriving DecidableEq, Repr

/-- Membership of a user in a property, carrying the two entitlement
buckets of the Balance Ledger (§3 of the spec; the frontend fields are
`permissao`, `saldoDiariasAtual`, `saldoDiariasFuturo`). -/
structure Membership where
  permissionLevel : PermLevel
  balanceCurrentYear : Nat
  balanceNextYear : Nat
  deriving DecidableEq, Repr

/-- Modelled from the spec: `availableNights(membership, year)` of §4.2;
the Balance Ledger is not in the available sources.  `thisYear` is the
current calendar year. -/
def availableNights (thisYear : Nat) (m : Membership) (year : Nat) :
    Except Err Nat :=
  if year = thisYear then .ok m.balanceCurrentYear
  else if year = thisYear + 1 then .ok m.balanceNextYear
  else .error .YearOutOfRange

/-- Modelled from the spec: `debit(membership, year, nights)` of §4.2 —
fails with `InsufficientBalance` when `nights > availableNights`, fails
with `YearOutOfRange` on an unmodeled year, otherwise decrements the
matching bucket. -/
def debit (thisYear : Nat) (m : Membership) (year nights : Nat) :
    Except Err Membership :=
  match availableNights thisYear m year with
  | .error e => .error e
  | .ok avail =>
    if nights > avail then .error .InsufficientBalance
    else if year = thisYear then
      .ok { m with balanceCurrentYear := m.balanceCurrentYear - nights }
    else
      .ok { m with balanceNextYear := m.balanceNextYear - nights }

/-- Modelled from the spec: `credit(membership, year, nights)` of §4.2 —
reverses a debit on cancellation; no maximum-balance cap is enforced. -/
def credit (thisYear : Nat) (m : Membership) (year nights : Nat) :
    Membership :=
  if year = thisYear then
    { m with balanceCurrentYear := m.balanceCurrentYear + nights }
  else if year = thisYear + 1 then
    { m with balanceNextYear := m.balanceNextYear + nights }
  else m

/-- Claim C3: `availableNights` returns `balanceCurrentYear` for the
current year, `balanceNextYear` for the next year, and fails with
`YearOutOfRange` for every other year. -/
theorem availableNights_two_buckets :
    (∀ (thisYear : Nat) (m : Membership),
      availableNights thisYear m thisYear = .ok m.balanceCurrentYear) ∧
    (∀ (thisYear : Nat) (m : Membership),
      availableNights thisYear m (thisYear + 1) = .ok m.balanceNextYear) ∧
    (∀ (thisYear : Nat) (m : Membership) (year : Nat),
      year ≠ thisYear → year ≠ thisYear + 1 →
        availableNights thisYear m year = .error .YearOutOfRange) := by
  refine ⟨?_, ?_, ?_⟩
  · intro thisYear m
    simp [availableNights]
  · intro thisYear m
    simp [availableNights]
  · intro thisYear m year h1 h2
    simp [availableNights, h1, h2]

/-- Witness for C3 at year 2027 against current year 2025. -/
theorem availableNights_two_buckets_witness :
    (2027 : Nat) ≠ 2025 ∧ (2027 : Nat) ≠ 2025 + 1 ∧
      availableNights 2025 ⟨.COMMON, 10, 20⟩ 2027 = .error .YearOutOfRange :=
  ⟨by decide, by decide,
    availableNights_two_buckets.2.2 2025 ⟨.COMMON, 10, 20⟩ 2027
      (by decide) (by decide)⟩

/-- Claim C7: whenever a debit succeeds, crediting the same nights back to
the same year bucket restores the membership exactly. -/
theorem debit_credit_roundtrip (thisYear : Nat) (m : Membership)
    (year nights : Nat) (m' : Membership)
    (h : debit thisYear m year nights = .ok m') :
    credit thisYear m' year nights = m := by
  by_cases hy : year = thisYear
  · subst hy
    by_cases hle : nights > m.balanceCurrentYear
    · simp [debit, availableNights, hle] at h
    · simp [debit, availableNights, hle] at h
      subst h
      cases m
      simp only [credit, if_pos]
      simp [Nat.sub_add_cancel (Nat.le_of_not_lt hle)]
  · by_cases hy2 : year = thisYear + 1
    · subst hy2
      have hne : thisYear + 1 ≠ thisYear := by omega
      by_cases hle : nights > m.balanceNextYear
      · simp [debit, availableNights, hne, hle] at h
      · simp [debit, availableNights, hne, hle] at h
        subst h
        cases m
        simp only [credit, hne, if_neg, if_pos]
        simp [hne, Nat.sub_add_cancel (Nat.le_of_not_lt hle)]
    · simp [debit, availableNights, hy, hy2] at h

/-- Witness for C7: debit 4 nights of 2025 from balances (10, 20), then
credit them back. -/
theorem debit_credit_roundtrip_witness :
    debit 2025 ⟨.COMMON, 10, 20⟩ 2025 4 = .ok ⟨.COMMON, 6, 20⟩ ∧
      credit 2025 ⟨.COMMON, 6, 20⟩ 2025 4 = ⟨.COMMON, 10, 20⟩ :=
  ⟨by decide, debit_credit_roundtrip 2025 ⟨.COMMON, 10, 20⟩ 2025 4
    ⟨.COMMON, 6, 20⟩ (by decide)⟩

/-- Calendar date as the Reservation Manager consumes it: an absolute day
index (for interval arithmetic) and its calendar year (for the bucket
selection rule of §4.2). -/
structure CalDate where
  day : Nat
  year : Nat
  deriving DecidableEq, Repr

structure Rules where
  minStayNights : Nat
  maxStayNights : Nat
  deriving DecidableEq, Repr

structure Reservation where
  id : Nat
  requesterId : Nat
  startDate : CalDate
  endDate : CalDate
  status : RStatus
  debitYear : Nat
  nightsCharged : Nat
  deriving DecidableEq, Repr

/-- Modelled from the spec: the single-property engine state of §2 — the
Conflict Index (intervals tagged with their reservation id), the Balance
Ledger (memberships keyed by user id), active penalties, and the stored
reservations; none of this backend state is in the available sources. -/
structure EngineState where
  thisYear : Nat
  today : Nat
  rules : Rules
  index : List (Nat × Nat × Nat)
  memberships : List (Nat × Membership)
  penalties : List Nat
  reservations : List Reservation
  nextId : Nat
  deriving DecidableEq, Repr

/-- Modelled from the spec: the Conflict Index `query` of §4.1 over the
interval entries `(reservationId, start, end)`. -/
def query (index : List (Nat × Nat × Nat)) (s e : Nat) : Bool :=
  index.any fun iv => overlaps iv.2.1 iv.2.2 s e

/-- Replace the membership stored for `uid`. -/
def setMembership (ms : List (Nat × Membership)) (uid : Nat)
    (m : Membership) : List (Nat × Membership) :=
  ms.map fun p => if p.1 = uid then (p.1, m) else p

def validYear (thisYear y : Nat) : Bool :=
  decide (y = thisYear) || decide (y = thisYear + 1)

/-- Reservation row created by a successful commit: CONFIRMED status,
`debitYear = start.year`, `nightsCharged = nights` (§4.3). -/
def mkReservation (st : EngineState) (requesterId : Nat) (s e : CalDate) :
    Reservation :=
  { id := st.nextId, requesterId := requesterId, startDate := s,
    endDate := e, status := .CONFIRMED, debitYear := s.year,
    nightsCharged := e.day - s.day }

/-- State after the atomic commit of §4.3: Conflict Index insert, Balance
Ledger debit result `m'`, reservation creation — all together. -/
def commitState (st : EngineState) (requesterId : Nat) (s e : CalDate)
    (m' : Membership) : EngineState :=
  { st with
    index := (st.nextId, s.day, e.day) :: st.index,
    memberships := setMembership st.memberships requesterId m',
    reservations := mkReservation st requesterId s e :: st.reservations,
    nextId := st.nextId + 1 }

/-- Modelled from the spec: `requestReservation` of §4.3, validation steps
1–6 followed by the atomic commit (index insert, ledger debit, reservation
creation in CONFIRMED status).  A requester without a stored membership is
treated as having no balance, mirroring the frontend's zero-value
fallback. -/
def requestReservation (st : EngineState) (requesterId : Nat)
    (s e : CalDate) : Except Err (EngineState × Reservation) :=
  if s.day < st.today then .error .PastDateError
  else if e.day - s.day < st.rules.minStayNights ∨
      st.rules.maxStayNights < e.day - s.day then .error .StayLengthError
  else if ¬(validYear st.thisYear s.year = true ∧
      validYear st.thisYear e.year = true) then .error .YearOutOfRange
  else if requesterId ∈ st.penalties then .error .PenaltyBlockError
  else if query st.index s.day e.day then .error .DateConflictError
  else
    match st.memberships.lookup requesterId with
    | none => .error .InsufficientBalance
    | some m =>
      match debit st.thisYear m s.year (e.day - s.day) with
      | .error err => .error err
      | .ok m' => .ok (commitState st requesterId s e m',
          mkReservation st requesterId s e)

/-- Whether `uid` holds MASTER permission in the property. -/
def isMasterUser (st : EngineState) (uid : Nat) : Bool :=
  match st.memberships.lookup uid with
  | some m => decide (m.permissionLevel = .MASTER)
  | none => false

/-- Whether `byUserId` may cancel reservation `r`: allowed for the
requester or a MASTER member while the status is PENDING or CONFIRMED. -/
def cancellable (st : EngineState) (r : Reservation) (byUserId : Nat) :
    Bool :=
  (decide (r.status = .PENDING) || decide (r.status = .CONFIRMED)) &&
    (decide (byUserId = r.requesterId) || isMasterUser st byUserId)

/-- Modelled from the spec: `cancelReservation(reservationId, byUserId)`
of §4.3 — on success removes the interval from the Conflict Index, credits
the Balance Ledger and sets the status to CANCELLED; otherwise fails with
`NotCancellable`. -/
def cancelReservation (st : EngineState) (resId byUserId : Nat) :
    Except Err EngineState :=
  match st.reservations.find? (fun x => decide (x.id = resId)) with
  | none => .error .NotCancellable
  | some r =>
    if cancellable st r byUserId then
      .ok { st with
        index := st.index.filter (fun iv => decide (¬iv.1 = resId)),
        memberships :=
          match st.memberships.lookup r.requesterId with
          | some m => setMembership st.memberships r.requesterId
              (credit st.thisYear m r.debitYear r.nightsCharged)
          | none => st.memberships,
        reservations := st.reservations.map
          (fun x => if x.id = resId then { x with status := .CANCELLED }
            else x) }
    else .error .NotCancellable

/-- A successful `requestReservation` is exactly the atomic commit: the
membership was found, the debit succeeded, and the returned state and
reservation are `commitState` and `mkReservation`. -/
theorem requestReservation_ok_shape (st : EngineState) (uid : Nat)
    (s e : CalDate) (st' : EngineState) (r : Reservation)
    (h : requestReservation st uid s e = .ok (st', r)) :
    ∃ m m', st.memberships.lookup uid = some m ∧
      debit st.thisYear m s.year (e.day - s.day) = .ok m' ∧
      r = mkReservation st uid s e ∧ st' = commitState st uid s e m' := by
  unfold requestReservation at h
  split at h
  · simp at h
  split at h
  · simp at h
  split at h
  · simp at h
  split at h
  · simp at h
  split at h
  · simp at h
  split at h
  · simp at h
  rename_i m hm
  split at h
  · simp at h
  rename_i m' hdeb
  simp only [Except.ok.injEq, Prod.mk.injEq] at h
  obtain ⟨h1, h2⟩ := h
  subst h1
  subst h2
  exact ⟨m, m', hm, hdeb, rfl, rfl⟩

/-- Engine state of Scenario D (and A): rules min 1 / max 15, a single
COMMON member (user 1) with balances 10 current / 20 next, empty index,
current year 2025, today at absolute day 100. -/
def scenState : EngineState :=
  { thisYear := 2025, today := 100, rules := ⟨1, 15⟩, index := [],
    memberships := [(1, ⟨.COMMON, 10, 20⟩)], penalties := [],
    reservations := [], nextId := 1 }

/-- Reservation produced by the Scenario A request (5 nights from absolute
day 110, year 2025). -/
def scenARes : Reservation :=
  { id := 1, requesterId := 1, startDate := ⟨110, 2025⟩,
    endDate := ⟨115, 2025⟩, status := .CONFIRMED, debitYear := 2025,
    nightsCharged := 5 }

/-- Engine state after the Scenario A commit. -/
def scenAState : EngineState :=
  { thisYear := 2025, today := 100, rules := ⟨1, 15⟩,
    index := [(1, 110, 115)], memberships := [(1, ⟨.COMMON, 5, 20⟩)],
    penalties := [], reservations := [scenARes], nextId := 2 }

/-- Claim C5: the commit is all-or-nothing.  Scenario D (an 11-night
request against a current-year balance of 10) fails with
`InsufficientBalance` and, the result being an error, returns no mutated
state; and every successful request carries all three mutations at once —
conflict-index insert, ledger debit, reservation created CONFIRMED. -/
theorem reservation_commit_atomic :
    requestReservation scenState 1 ⟨110, 2025⟩ ⟨121, 2025⟩ =
        .error .InsufficientBalance ∧
    (∀ (st : EngineState) (uid : Nat) (s e : CalDate) (st' : EngineState)
        (r : Reservation),
      requestReservation st uid s e = .ok (st', r) →
        st'.index = (r.id, s.day, e.day) :: st.index ∧
        (∃ m m', st.memberships.lookup uid = some m ∧
          debit st.thisYear m s.year (e.day - s.day) = .ok m' ∧
          st'.memberships = setMembership st.memberships uid m') ∧
        st'.reservations = r :: st.reservations ∧
        r.status = .CONFIRMED ∧ r.debitYear = s.year ∧
        r.nightsCharged = e.day - s.day) := by
  refine ⟨by decide, ?_⟩
  intro st uid s e st' r h
  obtain ⟨m, m', hm, hdeb, hr, hst⟩ := requestReservation_ok_shape
    st uid s e st' r h
  subst hr
  subst hst
  refine ⟨rfl, ⟨m, m', hm, hdeb, rfl⟩, rfl, rfl, rfl, rfl⟩

/-- Witness for C5: the Scenario A request commits, with all three
mutations visible in the returned state. -/
theorem reservation_commit_atomic_witness :
    requestReservation scenState 1 ⟨110, 2025⟩ ⟨115, 2025⟩ =
        .ok (scenAState, scenARes) ∧
      scenAState.index = (scenARes.id, 110, 115) :: scenState.index ∧
      scenAState.reservations = scenARes :: scenState.reservations ∧
      scenARes.status = .CONFIRMED := by
  have h : requestReservation scenState 1 ⟨110, 2025⟩ ⟨115, 2025⟩ =
      .ok (scenAState, scenARes) := by decide
  have happ := reservation_commit_atomic.2 scenState 1 ⟨110, 2025⟩
    ⟨115, 2025⟩ scenAState scenARes h
  exact ⟨h, happ.1, happ.2.2.1, happ.2.2.2.1⟩

/-- Claim C2: the start date's calendar year alone selects the bucket a
reservation is charged to — `debitYear = start.year`, and the whole charge
lands on that single bucket (the other bucket's field is untouched in the
updated membership), for every end date, including stays crossing a year
boundary. -/
theorem debit_year_from_start (st : EngineState) (uid : Nat)
    (s e : CalDate) (st' : EngineState) (r : Reservation) (m : Membership)
    (hm : st.memberships.lookup uid = some m)
    (h : requestReservation st uid s e = .ok (st', r)) :
    r.debitYear = s.year ∧
    (s.year = st.thisYear →
      st'.memberships = setMembership st.memberships uid
        { m with balanceCurrentYear :=
            m.balanceCurrentYear - (e.day - s.day) }) ∧
    (s.year = st.thisYear + 1 →
      st'.memberships = setMembership st.memberships uid
        { m with balanceNextYear :=
            m.balanceNextYear - (e.day - s.day) }) := by
  obtain ⟨m0, m', hm0, hdeb, hr, hst⟩ := requestReservation_ok_shape
    st uid s e st' r h
  rw [hm] at hm0
  injection hm0 with hmeq
  subst hmeq
  subst hr
  subst hst
  refine ⟨rfl, ?_, ?_⟩
  · intro hy
    rw [hy] at hdeb
    by_cases hle : e.day - s.day > m.balanceCurrentYear
    · simp [debit, availableNights, hle] at hdeb
    · simp [debit, availableNights, hle] at hdeb
      subst hdeb
      rfl
  · intro hy
    have hne : st.thisYear + 1 ≠ st.thisYear := by omega
    rw [hy] at hdeb
    by_cases hle : e.day - s.day > m.balanceNextYear
    · simp [debit, availableNights, hne, hle] at hdeb
    · simp [debit, availableNights, hne, hle] at hdeb
      subst hdeb
      rfl

/-- Engine state for the cross-year stay of C2's witness. -/
def crossState : EngineState :=
  { thisYear := 2025, today := 100, rules := ⟨1, 15⟩, index := [],
    memberships := [(1, ⟨.COMMON, 10, 20⟩)], penalties := [],
    reservations := [], nextId := 1 }

/-- Reservation of the cross-year witness stay: starts in 2025 (absolute
day 110), ends in 2026 (absolute day 117), 7 nights. -/
def crossRes : Reservation :=
  { id := 1, requesterId := 1, startDate := ⟨110, 2025⟩,
    endDate := ⟨117, 2026⟩, status := .CONFIRMED, debitYear := 2025,
    nightsCharged := 7 }

/-- Engine state after the cross-year commit: only the 2025 bucket paid. -/
def crossStateAfter : EngineState :=
  { thisYear := 2025, today := 100, rules := ⟨1, 15⟩,
    index := [(1, 110, 117)], memberships := [(1, ⟨.COMMON, 3, 20⟩)],
    penalties := [], reservations := [crossRes], nextId := 2 }

/-- Witness for C2: a stay crossing the 2025→2026 boundary is charged
entirely to the 2025 bucket and the 2026 bucket is untouched. -/
theorem debit_year_from_start_witness :
    crossState.memberships.lookup 1 = some ⟨.COMMON, 10, 20⟩ ∧
    requestReservation crossState 1 ⟨110, 2025⟩ ⟨117, 2026⟩ =
        .ok (crossStateAfter, crossRes) ∧
    crossRes.debitYear = 2025 ∧
    crossStateAfter.memberships =
      setMembership crossState.memberships 1 ⟨.COMMON, 3, 20⟩ := by
  have hm : crossState.memberships.lookup 1 = some ⟨.COMMON, 10, 20⟩ := by
    decide
  have h : requestReservation crossState 1 ⟨110, 2025⟩ ⟨117, 2026⟩ =
      .ok (crossStateAfter, crossRes) := by decide
  have happ := debit_year_from_start crossState 1 ⟨110, 2025⟩ ⟨117, 2026⟩
    crossStateAfter crossRes ⟨.COMMON, 10, 20⟩ hm h
  exact ⟨hm, h, happ.1, happ.2.1 rfl⟩

/-- Claim C6: `cancelReservation` succeeds exactly when the reservation is
found with status PENDING or CONFIRMED and the caller is its requester or
a MASTER member; a reservation already CANCELLED fails with
`NotCancellable` (failure returns no state, so the ledger cannot be
credited again); and a successful cancel removes the interval from the
index, sets the status to CANCELLED and credits the ledger back. -/
theorem cancelReservation_spec (st : EngineState) (resId byUserId : Nat) :
    ((∃ st', cancelReservation st resId byUserId = .ok st') ↔
      (∃ r, st.reservations.find? (fun x => decide (x.id = resId)) =
          some r ∧
        (r.status = .PENDING ∨ r.status = .CONFIRMED) ∧
        (byUserId = r.requesterId ∨ isMasterUser st byUserId = true))) ∧
    (∀ r, st.reservations.find? (fun x => decide (x.id = resId)) =
        some r →
      r.status = .CANCELLED →
      cancelReservation st resId byUserId = .error .NotCancellable) ∧
    (∀ st', cancelReservation st resId byUserId = .ok st' →
      st'.index = st.index.filter (fun iv => decide (¬iv.1 = resId)) ∧
      st'.reservations = st.reservations.map
        (fun x => if x.id = resId then { x with status := .CANCELLED }
          else x) ∧
      (∀ r m,
        st.reservations.find? (fun x => decide (x.id = resId)) = some r →
        st.memberships.lookup r.requesterId = some m →
        st'.memberships = setMembership st.memberships r.requesterId
          (credit st.thisYear m r.debitYear r.nightsCharged))) := by
  cases hf : st.reservations.find? (fun x => decide (x.id = resId)) with
  | none =>
    refine ⟨⟨?_, ?_⟩, ?_, ?_⟩
    · rintro ⟨st', hst⟩
      simp only [cancelReservation, hf] at hst
      cases hst
    · rintro ⟨r, hr, _⟩
      cases hr
    · intro r hr
      cases hr
    · intro st' hst
      simp only [cancelReservation, hf] at hst
      cases hst
  | some r0 =>
    by_cases hc : cancellable st r0 byUserId = true
    · have hcp : (r0.status = .PENDING ∨ r0.status = .CONFIRMED) ∧
          (byUserId = r0.requesterId ∨ isMasterUser st byUserId = true) :=
        by simpa [cancellable] using hc
      refine ⟨⟨?_, ?_⟩, ?_, ?_⟩
      · intro _
        exact ⟨r0, rfl, hcp.1, hcp.2⟩
      · intro _
        cases hres : cancelReservation st resId byUserId with
        | error e =>
          simp only [cancelReservation, hf] at hres
          rw [if_pos hc] at hres
          cases hres
        | ok st2 => exact ⟨st2, rfl⟩
      · intro r hr hcanc
        injection hr with hr
        subst hr
        rcases hcp.1 with hp | hp <;> rw [hcanc] at hp <;> cases hp
      · intro st' hst
        simp only [cancelReservation, hf] at hst
        rw [if_pos hc] at hst
        injection hst with hst
        subst hst
        refine ⟨rfl, rfl, ?_⟩
        intro r m hr hm
        injection hr with hr
        subst hr
        simp only [hm]
    · have hcerr : cancelReservation st resId byUserId =
          .error .NotCancellable := by
        simp only [cancelReservation, hf]
        rw [if_neg hc]
      refine ⟨⟨?_, ?_⟩, ?_, ?_⟩
      · rintro ⟨st', hst⟩
        rw [hcerr] at hst
        cases hst
      · rintro ⟨r, hr, hstat, hperm⟩
        injection hr with hr
        subst hr
        have hct : cancellable st r0 byUserId = true := by
          rcases hstat with h1 | h1 <;> rcases hperm with h2 | h2 <;>
            simp [cancellable, h1, h2]
        exact absurd hct hc
      · intro r hr hcanc
        exact hcerr
      · intro st' hst
        rw [hcerr] at hst
        cases hst

/-- Cancellable reservation used by the C6 witness. -/
def cancelRes : Reservation :=
  { id := 5, requesterId := 1, startDate := ⟨110, 2025⟩,
    endDate := ⟨115, 2025⟩, status := .CONFIRMED, debitYear := 2025,
    nightsCharged := 5 }

/-- Engine state holding `cancelRes` in the index and the ledger already
debited by its 5 nights. -/
def cancelState : EngineState :=
  { thisYear := 2025, today := 100, rules := ⟨1, 15⟩,
    index := [(5, 110, 115)], memberships := [(1, ⟨.COMMON, 5, 20⟩)],
    penalties := [], reservations := [cancelRes], nextId := 6 }

/-- Already-cancelled variant of `cancelRes`. -/
def cancelledRes : Reservation :=
  { id := 5, requesterId := 1, startDate := ⟨110, 2025⟩,
    endDate := ⟨115, 2025⟩, status := .CANCELLED, debitYear := 2025,
    nightsCharged := 5 }

/-- Engine state holding only the cancelled reservation. -/
def cancelledState : EngineState :=
  { thisYear := 2025, today := 100, rules := ⟨1, 15⟩, index := [],
    memberships := [(1, ⟨.COMMON, 10, 20⟩)], penalties := [],
    reservations := [cancelledRes], nextId := 6 }

/-- Witness for C6: the requester cancels their CONFIRMED reservation, and
cancelling an already-CANCELLED reservation fails `NotCancellable`. -/
theorem cancelReservation_spec_witness :
    (∃ st', cancelReservation cancelState 5 1 = .ok st') ∧
      cancelReservation cancelledState 5 1 = .error .NotCancellable :=
  ⟨(cancelReservation_spec cancelState 5 1).1.mpr
      ⟨cancelRes, by decide, Or.inr rfl, Or.inl rfl⟩,
    (cancelReservation_spec cancelledState 5 1).2.1 cancelledRes
      (by decide) rfl⟩

inductive Possession where
  | AWAITING_CHECKIN
  | CHECKED_IN
  | COMPLETED
  deriving DecidableEq, Repr

/-- Modelled from the spec: per-reservation possession lifecycle state of
§4.4 — the possession phase plus whether a CHECKIN / CHECKOUT
ChecklistRecord has been created (each is created at most once). -/
structure PossState where
  possession : Possession
  hasCheckinRecord : Bool
  hasCheckoutRecord : Bool
  deriving DecidableEq, Repr

/-- Modelled from the spec: `canCheckin` of §4.4 — reservation CONFIRMED,
caller is the requester, no CHECKIN record yet, inventory non-empty. -/
def canCheckin (statusConfirmed callerIsRequester inventoryNonempty : Bool)
    (ps : PossState) : Bool :=
  statusConfirmed && callerIsRequester && !ps.hasCheckinRecord &&
    inventoryNonempty && decide (ps.possession = .AWAITING_CHECKIN)

/-- Modelled from the spec: `canCheckout` of §4.4 — possession is
CHECKED_IN and no CHECKOUT record exists. -/
def canCheckout (ps : PossState) : Bool :=
  decide (ps.possession = .CHECKED_IN) && !ps.hasCheckoutRecord

/-- Modelled from the spec: the possession transitions of §4.4 —
`submitCheckin` creates the CHECKIN record and moves to CHECKED_IN,
`submitCheckout` creates the CHECKOUT record and completes; each is gated
by its `can…` guard. -/
inductive PossStep
    (statusConfirmed callerIsRequester inventoryNonempty : Bool) :
    PossState → PossState → Prop where
  | submitCheckin (ps : PossState) :
      canCheckin statusConfirmed callerIsRequester inventoryNonempty ps =
        true →
      PossStep statusConfirmed callerIsRequester inventoryNonempty ps
        { possession := .CHECKED_IN, hasCheckinRecord := true,
          hasCheckoutRecord := ps.hasCheckoutRecord }
  | submitCheckout (ps : PossState) :
      canCheckout ps = true →
      PossStep statusConfirmed callerIsRequester inventoryNonempty ps
        { possession := .COMPLETED,
          hasCheckinRecord := ps.hasCheckinRecord,
          hasCheckoutRecord := true }

/-- Initial possession state of a CONFIRMED reservation. -/
def initPoss : PossState := ⟨.AWAITING_CHECKIN, false, false⟩

/-- States reachable from the initial possession state by checklist
submissions. -/
def PossReachable (statusConfirmed callerIsRequester inventoryNonempty :
    Bool) (ps : PossState) : Prop :=
  Relation.ReflTransGen
    (PossStep statusConfirmed callerIsRequester inventoryNonempty)
    initPoss ps

/-- Inductive invariant carried through every possession step. -/
def possInv (ps : PossState) : Prop :=
  (ps.possession ≠ .AWAITING_CHECKIN → ps.hasCheckinRecord = true) ∧
    (ps.hasCheckoutRecord = true → ps.hasCheckinRecord = true)

theorem possInv_of_reachable (c r i : Bool) (ps : PossState)
    (h : PossReachable c r i ps) : possInv ps := by
  induction h with
  | refl => exact ⟨fun hne => absurd rfl hne, fun hco => by cases hco⟩
  | @tail ps0 ps1 hsteps hstep ih =>
    cases hstep with
    | submitCheckin hg =>
      exact ⟨fun _ => rfl, fun _ => rfl⟩
    | submitCheckout hg =>
      have hin : ps0.possession = .CHECKED_IN := by
        simp [canCheckout] at hg
        exact hg.1
      refine ⟨fun _ => ?_, fun _ => ?_⟩ <;>
        exact ih.1 (by rw [hin]; intro hc; cases hc)

/-- Claim C8: in every reachable possession state, a CHECKOUT record
exists only if a CHECKIN record exists (the check-in was necessarily
created by an earlier step); and checkout is enabled exactly when
possession is CHECKED_IN with no CHECKOUT record yet. -/
theorem checkout_requires_checkin :
    (∀ (c r i : Bool) (ps : PossState), PossReachable c r i ps →
      ps.hasCheckoutRecord = true → ps.hasCheckinRecord = true) ∧
    (∀ ps : PossState, canCheckout ps = true ↔
      ps.possession = .CHECKED_IN ∧ ps.hasCheckoutRecord = false) := by
  refine ⟨?_, ?_⟩
  · intro c r i ps h hco
    exact (possInv_of_reachable c r i ps h).2 hco
  · intro ps
    simp [canCheckout]

/-- Witness for C8: the two-step run check-in then check-out reaches the
completed state with both records, and the invariant instantiates there. -/
theorem checkout_requires_checkin_witness :
    PossReachable true true true ⟨.COMPLETED, true, true⟩ ∧
      (⟨.COMPLETED, true, true⟩ : PossState).hasCheckinRecord = true ∧
      canCheckout ⟨.CHECKED_IN, true, false⟩ = true := by
  have h1 : PossStep true true true initPoss
      ⟨.CHECKED_IN, true, false⟩ :=
    PossStep.submitCheckin initPoss (by decide)
  have h2 : PossStep true true true ⟨.CHECKED_IN, true, false⟩
      ⟨.COMPLETED, true, true⟩ :=
    PossStep.submitCheckout ⟨.CHECKED_IN, true, false⟩ (by decide)
  have hreach : PossReachable true true true ⟨.COMPLETED, true, true⟩ :=
    Relation.ReflTransGen.tail (Relation.ReflTransGen.single h1) h2
  exact ⟨hreach,
    checkout_requires_checkin.1 true true true _ hreach rfl,
    (checkout_requires_checkin.2 ⟨.CHECKED_IN, true, false⟩).mpr
      ⟨rfl, rfl⟩⟩

/-- Logged-in user as CalendarPage.jsx sees it. -/
structure Usuario where
  id : Nat
  deriving DecidableEq, Repr

/-- Entry of `property.usuarios`: the member's nested `usuario` object and
the balance fields may be absent, matching the optional chaining and
`?? 0` fallbacks in the source.  Balances are JS numbers, embedded as
rationals. -/
structure MemberLink where
  usuario : Option Usuario
  permissao : String
  saldoDiariasAtual : Option ℚ
  saldoDiariasFuturo : Option ℚ
  deriving DecidableEq, Repr

/-- Property as fetched by CalendarPage.jsx; `usuarios` is reached through
optional chaining (`property.usuarios?.find`). -/
structure Property where
  usuarios : Option (List MemberLink)
  deriving DecidableEq, Repr

structure CurrentUserData where
  isMaster : Bool
  saldoDiariasAtual : ℚ
  saldoDiariasFuturo : ℚ
  deriving DecidableEq, Repr

/-- The `currentUserData` memo of CalendarPage.jsx: with no property or no
logged-in user it yields the zero record; otherwise it scans
`property.usuarios` for `m.usuario?.id === usuario.id` and falls back to
`false` / `0` through `?.` and `?? 0` when nothing is found. -/
def currentUserData (property : Option Property)
    (usuario : Option Usuario) : CurrentUserData :=
  match property, usuario with
  | some p, some u =>
    match p.usuarios.bind
        (fun l => l.find? (fun m => m.usuario.map Usuario.id == some u.id))
      with
    | some userLink =>
      { isMaster := userLink.permissao == "proprietario_master",
        saldoDiariasAtual := userLink.saldoDiariasAtual.getD 0,
        saldoDiariasFuturo := userLink.saldoDiariasFuturo.getD 0 }
    | none => { isMaster := false, saldoDiariasAtual := 0,
                saldoDiariasFuturo := 0 }
  | _, _ => { isMaster := false, saldoDiariasAtual := 0,
              saldoDiariasFuturo := 0 }

/-- Claim C9: a null property, a null user, or a user absent from the
property's member list all produce `isMaster = false` with both balances
0, with no error — indistinguishable from a present membership whose
stored balances are 0. -/
theorem currentUserData_missing_membership :
    (∀ u, currentUserData none u = ⟨false, 0, 0⟩) ∧
    (∀ p, currentUserData p none = ⟨false, 0, 0⟩) ∧
    (∀ (p : Property) (u : Usuario),
      p.usuarios.bind (fun l => l.find?
          (fun m => m.usuario.map Usuario.id == some u.id)) = none →
        currentUserData (some p) (some u) = ⟨false, 0, 0⟩) ∧
    (∀ (u : Usuario) (zeroLink : MemberLink),
      zeroLink.usuario = some u → zeroLink.permissao = "proprietario_comum" →
      zeroLink.saldoDiariasAtual = some 0 →
      zeroLink.saldoDiariasFuturo = some 0 →
      currentUserData (some ⟨some [zeroLink]⟩) (some u) = ⟨false, 0, 0⟩) := by
  refine ⟨?_, ?_, ?_, ?_⟩
  · intro u
    rfl
  · intro p
    cases p <;> rfl
  · intro p u h
    simp only [currentUserData, h]
  · intro u zeroLink hu hperm hsa hsf
    simp [currentUserData, List.find?, hu, hperm, hsa, hsf]

/-- Witness for C9: a member list whose only entry belongs to user 2 is a
missing membership for user 1, and a present zero-balance COMMON
membership for user 1 renders identically. -/
theorem currentUserData_missing_membership_witness :
    (Property.mk (some [⟨some ⟨2⟩, "proprietario_comum", some 10,
        some 20⟩])).usuarios.bind
      (fun l => l.find?
        (fun m => m.usuario.map Usuario.id == some (Usuario.mk 1).id)) =
        none ∧
    currentUserData
        (some ⟨some [⟨some ⟨2⟩, "proprietario_comum", some 10, some 20⟩]⟩)
        (some ⟨1⟩) = ⟨false, 0, 0⟩ ∧
    currentUserData
        (some ⟨some [⟨some ⟨1⟩, "proprietario_comum", some 0, some 0⟩]⟩)
        (some ⟨1⟩) = ⟨false, 0, 0⟩ :=
  ⟨by decide,
    currentUserData_missing_membership.2.2.1
      ⟨some [⟨some ⟨2⟩, "proprietario_comum", some 10, some 20⟩]⟩ ⟨1⟩
      (by decide),
    currentUserData_missing_membership.2.2.2 ⟨1⟩
      ⟨some ⟨1⟩, "proprietario_comum", some 0, some 0⟩ rfl rfl rfl rfl⟩

/-- What the balance card renders for the two buckets: UserBalanceCard in
CalendarPage.jsx shows `Math.floor(saldoAtual)` and
`Math.floor(saldoFuturo)`. -/
structure BalanceCardView where
  saldoAtualShown : ℤ
  saldoFuturoShown : ℤ
  deriving DecidableEq, Repr

/-- The `UserBalanceCard` component's displayed numbers. -/
def UserBalanceCard (saldoAtual saldoFuturo : ℚ) : BalanceCardView :=
  ⟨⌊saldoAtual⌋, ⌊saldoFuturo⌋⟩

/-- Claim C10: the card always displays the floor of both balance values;
every non-negative integer balance is displayed unchanged, and on a
non-negative fractional balance the displayed number is the value with
its fractional part dropped (within 1 below the value, never above). -/
theorem balance_card_floors :
    (∀ a f : ℚ, UserBalanceCard a f = ⟨⌊a⌋, ⌊f⌋⟩) ∧
    (∀ n m : ℕ, UserBalanceCard n m = ⟨n, m⟩) ∧
    (∀ a : ℚ, 0 ≤ a →
      ((UserBalanceCard a 0).saldoAtualShown : ℚ) ≤ a ∧
        a < (UserBalanceCard a 0).saldoAtualShown + 1 ∧
        0 ≤ (UserBalanceCard a 0).saldoAtualShown) := by
  refine ⟨?_, ?_, ?_⟩
  · intro a f
    rfl
  · intro n m
    simp [UserBalanceCard]
  · intro a ha
    refine ⟨Int.floor_le a, ?_, Int.floor_nonneg.mpr ha⟩
    exact Int.lt_floor_add_one a

/-- Witness for C10: balance 7/2 is displayed as an integer within 1 below
the stored value. -/
theorem balance_card_floors_witness :
    (0 : ℚ) ≤ 7 / 2 ∧
      ((UserBalanceCard (7 / 2) 0).saldoAtualShown : ℚ) ≤ 7 / 2 ∧
      (7 / 2 : ℚ) < (UserBalanceCard (7 / 2) 0).saldoAtualShown + 1 :=
  ⟨by norm_num,
    (balance_card_floors.2.2 (7 / 2) (by norm_num)).1,
    (balance_card_floors.2.2 (7 / 2) (by norm_num)).2.1⟩

end Qota
